import Mathlib

/-!
Verification development for the quantitative analysis engine of a
crypto trade-analyser web application.

The engine's modules are shallowly embedded here:

* `src/services/technicalAnalysis.ts` — indicator library
  (`calculateEMA`, `calculateRSI`), the trade scorer
  (`calculateTargetProbabilities`, `calculateTradeSuccessLikelihood`)
  and the `analyzeTrade` facade's overall-score computation.
* `src/services/backtesting.ts` (bundled in `App_full.tsx`) —
  `calculateProfitLoss` and `runBacktest`.
* `src/types/index.ts` — the data model (`OHLCData`, `BacktestTrade`,
  `TradeMetrics`, `BacktestStatistics`, `BacktestResult`).

JavaScript numbers are modelled by `JsNum`: an exact rational together
with the non-finite values `NaN`, `+Infinity`, `-Infinity`, and
`undefined` (which coerces to `NaN` in arithmetic).  Float rounding is
idealised away — every claim below is about exact value identities, and
all concrete inputs used are small rationals — but the non-finite
propagation rules follow ECMAScript exactly, because several claims turn
on division by zero and on missing (`undefined`) values.
-/

/-- A JavaScript number as used by the engine: an exact rational
(`num`), the two infinities, `NaN`, and `undef` for the JavaScript
value `undefined` (which behaves as `NaN` once it enters arithmetic). -/
inductive JsNum where
  | nan : JsNum
  | undef : JsNum
  | inf : JsNum
  | ninf : JsNum
  | num : ℚ → JsNum
deriving DecidableEq, Repr

namespace JsNum

/-- JavaScript unary minus. -/
def jsNeg : JsNum → JsNum
  | nan => nan
  | undef => nan
  | inf => ninf
  | ninf => inf
  | num a => num (-a)

/-- JavaScript addition (`+` on numbers): `NaN`/`undefined` is
absorbing, `Infinity + (-Infinity)` is `NaN`. -/
def jsAdd : JsNum → JsNum → JsNum
  | nan, _ => nan
  | undef, _ => nan
  | _, nan => nan
  | _, undef => nan
  | num a, num b => num (a + b)
  | inf, ninf => nan
  | ninf, inf => nan
  | inf, _ => inf
  | _, inf => inf
  | ninf, _ => ninf
  | _, ninf => ninf

/-- JavaScript subtraction, `a - b = a + (-b)`. -/
def jsSub (a b : JsNum) : JsNum := jsAdd a (jsNeg b)

/-- JavaScript multiplication: `NaN`/`undefined` absorbing,
`Infinity * 0 = NaN`, otherwise infinities follow the sign rules. -/
def jsMul : JsNum → JsNum → JsNum
  | nan, _ => nan
  | undef, _ => nan
  | _, nan => nan
  | _, undef => nan
  | num a, num b => num (a * b)
  | inf, num b => if b = 0 then nan else if 0 < b then inf else ninf
  | ninf, num b => if b = 0 then nan else if 0 < b then ninf else inf
  | num a, inf => if a = 0 then nan else if 0 < a then inf else ninf
  | num a, ninf => if a = 0 then nan else if 0 < a then ninf else inf
  | inf, inf => inf
  | inf, ninf => ninf
  | ninf, inf => ninf
  | ninf, ninf => inf

/-- JavaScript division: `0/0 = NaN`, `a/0 = ±Infinity` for `a ≠ 0`
(the model has no negative zero), finite/`Infinity` is `0`,
`Infinity/Infinity` is `NaN`. -/
def jsDiv : JsNum → JsNum → JsNum
  | nan, _ => nan
  | undef, _ => nan
  | _, nan => nan
  | _, undef => nan
  | num a, num b =>
      if b = 0 then (if a = 0 then nan else if 0 < a then inf else ninf)
      else num (a / b)
  | num _, inf => num 0
  | num _, ninf => num 0
  | inf, num b => if 0 ≤ b then inf else ninf
  | ninf, num b => if 0 ≤ b then ninf else inf
  | inf, inf => nan
  | inf, ninf => nan
  | ninf, inf => nan
  | ninf, ninf => nan

/-- `Math.abs`. -/
def jsAbs : JsNum → JsNum
  | nan => nan
  | undef => nan
  | inf => inf
  | ninf => inf
  | num a => num |a|

/-- `Math.min` (binary): returns `NaN` if either argument is `NaN`. -/
def jsMin : JsNum → JsNum → JsNum
  | nan, _ => nan
  | undef, _ => nan
  | _, nan => nan
  | _, undef => nan
  | ninf, _ => ninf
  | _, ninf => ninf
  | num a, num b => num (min a b)
  | inf, b => b
  | a, inf => a

/-- `Math.max` (binary): returns `NaN` if either argument is `NaN`. -/
def jsMax : JsNum → JsNum → JsNum
  | nan, _ => nan
  | undef, _ => nan
  | _, nan => nan
  | _, undef => nan
  | inf, _ => inf
  | _, inf => inf
  | num a, num b => num (max a b)
  | ninf, b => b
  | a, ninf => a

/-- `Math.round`: round half toward positive infinity,
`Math.round x = ⌊x + 1/2⌋` on finite values. -/
def jsRound : JsNum → JsNum
  | nan => nan
  | undef => nan
  | inf => inf
  | ninf => ninf
  | num a => num ((⌊a + 1/2⌋ : ℤ) : ℚ)

end JsNum

open JsNum

/-- Trade direction (`'long' | 'short'` in the source). -/
inductive Direction where
  | long : Direction
  | short : Direction
deriving DecidableEq, Repr

/-! ## Indicator library (`src/services/technicalAnalysis.ts`) -/

/-- The loop body of `calculateEMA`
(`for (let i = 1; i < prices.length; i++) { ... ema.push(currentEMA) }`):
given the multiplier, the previous EMA value and the remaining prices,
produce the pushed values `(prices[i] - ema[i-1]) * multiplier + ema[i-1]`. -/
def emaLoop (multiplier : ℚ) : ℚ → List ℚ → List ℚ
  | _, [] => []
  | prev, p :: rest =>
      let currentEMA := (p - prev) * multiplier + prev
      currentEMA :: emaLoop multiplier currentEMA rest

/-- `calculateEMA(prices, period)` from `technicalAnalysis.ts:3-13`.
The seed of the output array is `prices[0]`; on an empty input array the
JavaScript read `prices[0]` is out of bounds and yields `undefined`,
which is stored unchanged (the loop body never runs), so the output is
the one-element array `[undefined]`.  On non-empty input every value is
a finite rational. -/
def calculateEMA (prices : List ℚ) (period : ℕ) : List JsNum :=
  let multiplier : ℚ := 2 / ((period : ℚ) + 1)
  match prices with
  | [] => [JsNum.undef]
  | p :: rest => JsNum.num p :: (emaLoop multiplier p rest).map JsNum.num

/-- Day-over-day changes `prices[i] - prices[i-1]` for `i = 1, ...`
(the first loop of `calculateRSI`). -/
def priceChanges : List ℚ → List ℚ
  | a :: b :: rest => (b - a) :: priceChanges (b :: rest)
  | _ => []

/-- One RSI value, `100 - (100 / (1 + avgGain / avgLoss))`, with
JavaScript division: `avgLoss = 0, avgGain > 0` collapses to `100`
(division by zero gives `+Infinity`), while `avgGain = avgLoss = 0`
gives `0/0 = NaN` which propagates to the stored value. -/
def rsiVal (avgGain avgLoss : ℚ) : JsNum :=
  jsSub (JsNum.num 100)
    (jsDiv (JsNum.num 100)
      (jsAdd (JsNum.num 1) (jsDiv (JsNum.num avgGain) (JsNum.num avgLoss))))

/-- The Wilder-smoothing loop of `calculateRSI`
(`for (let i = period; i < prices.length - 1; i++)`): consumes the
gains/losses past the seed window, updating
`avg = (avg * (period - 1) + new) / period` and pushing an RSI value
per step. -/
def rsiLoop (period : ℕ) : ℚ → ℚ → List ℚ → List ℚ → List JsNum
  | avgGain, avgLoss, g :: gs, l :: ls =>
      let avgGain' := (avgGain * ((period : ℚ) - 1) + g) / (period : ℚ)
      let avgLoss' := (avgLoss * ((period : ℚ) - 1) + l) / (period : ℚ)
      rsiVal avgGain' avgLoss' :: rsiLoop period avgGain' avgLoss' gs ls
  | _, _, _, _ => []

/-- `calculateRSI(prices, period = 14)` from `technicalAnalysis.ts:15-38`.
Gains and losses are the positive/negative parts of the day-over-day
changes; the seed averages are the sums of the first `period` values
divided by `period`, and the remaining values feed the Wilder loop.
(The source's `period` is a positive integer — 14 at every call site;
the theorems below assume `0 < period`.) -/
def calculateRSI (prices : List ℚ) (period : ℕ) : List JsNum :=
  let changes := priceChanges prices
  let gains := changes.map (fun c => if 0 < c then c else 0)
  let losses := changes.map (fun c => if c < 0 then -c else 0)
  let avgGain := (gains.take period).sum / (period : ℚ)
  let avgLoss := (losses.take period).sum / (period : ℚ)
  rsiVal avgGain avgLoss ::
    rsiLoop period avgGain avgLoss (gains.drop period) (losses.drop period)

/-! ## Trade scorer (`src/services/technicalAnalysis.ts`) -/

/-- The raw (pre-normalization) take-profit and stop-loss values of
`calculateTargetProbabilities` (`technicalAnalysis.ts:201-236`):
distances to the targets as percentages of `currentPrice` (a JavaScript
division, `±Infinity`/`NaN` when `currentPrice = 0`), base
probabilities from the market-condition scores, a direction-alignment
factor, a distance-decay factor `max(0, 1 - distance/20)`, and a
volatility factor (`1 - v/100` for take-profit, `v/100` for stop-loss). -/
def targetRawProbabilities (currentPrice takeProfit stopLoss : ℚ)
    (direction : Direction) (trendScore momentumScore volatilityScore : ℚ) :
    JsNum × JsNum :=
  let tpDistance : JsNum :=
    jsMul (jsAbs (jsDiv (JsNum.num (takeProfit - currentPrice)) (JsNum.num currentPrice))) (JsNum.num 100)
  let slDistance : JsNum :=
    jsMul (jsAbs (jsDiv (JsNum.num (stopLoss - currentPrice)) (JsNum.num currentPrice))) (JsNum.num 100)
  let tpBaseProbability : ℚ :=
    trendScore * 0.4 + momentumScore * 0.4 + (100 - volatilityScore) * 0.2
  let slBaseProbability : ℚ := 100 - tpBaseProbability
  let tpBase : ℚ :=
    match direction with
    | .long => tpBaseProbability * (trendScore / 100)
    | .short => tpBaseProbability * (1 - trendScore / 100)
  let slBase : ℚ :=
    match direction with
    | .long => slBaseProbability * (1 - trendScore / 100)
    | .short => slBaseProbability * (trendScore / 100)
  let tpDistanceImpact : JsNum :=
    jsMax (JsNum.num 0) (jsSub (JsNum.num 1) (jsDiv tpDistance (JsNum.num 20)))
  let slDistanceImpact : JsNum :=
    jsMax (JsNum.num 0) (jsSub (JsNum.num 1) (jsDiv slDistance (JsNum.num 20)))
  let volatilityMultiplier : ℚ := volatilityScore / 100
  (jsMul (jsMul (JsNum.num tpBase) tpDistanceImpact) (JsNum.num (1 - volatilityMultiplier)),
   jsMul (jsMul (JsNum.num slBase) slDistanceImpact) (JsNum.num volatilityMultiplier))

/-- `calculateTargetProbabilities` (`technicalAnalysis.ts:201-247`):
normalizes the raw values to percentages of their total
(`(tpProbability / total) * 100`, a JavaScript division — `NaN` when
both raw values are zero) and rounds each with `Math.round`. -/
def calculateTargetProbabilities (currentPrice takeProfit stopLoss : ℚ)
    (direction : Direction) (trendScore momentumScore volatilityScore : ℚ) :
    JsNum × JsNum :=
  let raw := targetRawProbabilities currentPrice takeProfit stopLoss direction
    trendScore momentumScore volatilityScore
  let total := jsAdd raw.1 raw.2
  (jsRound (jsMul (jsDiv raw.1 total) (JsNum.num 100)),
   jsRound (jsMul (jsDiv raw.2 total) (JsNum.num 100)))

/-- `calculateTradeSuccessLikelihood` (`technicalAnalysis.ts:295-321`):
a six-parameter function — market-condition sub-score
`0.4·trend + 0.4·momentum + 0.2·(100 - volatility)`, trade-parameters
sub-score `0.4·min(100, riskReward·33.33) + 0.4·tpProb + 0.2·(100 - slProb)`,
blended `min(100, 0.6·market + 0.4·tradeParams)`. -/
def calculateTradeSuccessLikelihood
    (trendScore momentumScore volatilityScore riskRewardRatio
     tpProbability slProbability : JsNum) : JsNum :=
  let marketConditionScore :=
    jsAdd (jsAdd (jsMul trendScore (JsNum.num 0.4)) (jsMul momentumScore (JsNum.num 0.4)))
      (jsMul (jsSub (JsNum.num 100) volatilityScore) (JsNum.num 0.2))
  let tradeParametersScore :=
    jsAdd (jsAdd (jsMul (jsMin (JsNum.num 100) (jsMul riskRewardRatio (JsNum.num 33.33))) (JsNum.num 0.4))
        (jsMul tpProbability (JsNum.num 0.4)))
      (jsMul (jsSub (JsNum.num 100) slProbability) (JsNum.num 0.2))
  jsMin (JsNum.num 100)
    (jsAdd (jsMul marketConditionScore (JsNum.num 0.6))
      (jsMul tradeParametersScore (JsNum.num 0.4)))

/-- The overall-score computation of `analyzeTrade`
(`technicalAnalysis.ts:182-185`): the six-parameter
`calculateTradeSuccessLikelihood` is invoked with only five arguments
`(trendScore, momentumScore, volatilityScore, tpProbability,
slProbability)`, so inside the callee `riskRewardRatio` is bound to the
caller's `tpProbability`, `tpProbability` to the caller's
`slProbability`, and `slProbability` to `undefined`. -/
def analyzeTradeOverallScore
    (trendScore momentumScore volatilityScore tpProbability slProbability : JsNum) : JsNum :=
  calculateTradeSuccessLikelihood trendScore momentumScore volatilityScore
    tpProbability slProbability JsNum.undef

/-! ## Data model (`src/types/index.ts`) and backtest simulator
(`src/services/backtesting.ts`, bundled in `App_full.tsx`) -/

/-- `OHLCData` (`types/index.ts:7-14`): one daily candle.  The source
field `open` is a Lean keyword and is rendered `open_` here; the
optional `volume` field is never read by the engine and is omitted. -/
structure OHLCData where
  time : ℤ
  open_ : ℚ
  high : ℚ
  low : ℚ
  close : ℚ
deriving DecidableEq, Repr

/-- The `result` tag of a backtest trade (`'take_profit' | 'stop_loss'`). -/
inductive TradeResultTag where
  | take_profit : TradeResultTag
  | stop_loss : TradeResultTag
deriving DecidableEq, Repr

/-- `TradeMetrics` (`types/index.ts:25-30`). -/
structure TradeMetrics where
  maxFavorableExcursion : ℚ
  maxAdverseExcursion : ℚ
  timeToExit : ℚ
  riskRewardRatio : ℚ
deriving DecidableEq, Repr

/-- `BacktestTrade` (`types/index.ts:32-44`).  The interface declares
all eleven properties as required, but the object `runBacktest` pushes
carries only `entry_time`, `exit_time`, `entry_price`, `exit_price`,
`high_price`, `low_price` and `profit_loss`; reading any of the other
four off such an object yields `undefined` at runtime, modelled here by
`Option` fields set to `none`. -/
structure BacktestTrade where
  entry_time : ℤ
  exit_time : ℤ
  entry_price : ℚ
  exit_price : ℚ
  high_price : ℚ
  low_price : ℚ
  result : Option TradeResultTag
  profit_loss : JsNum
  metrics : Option TradeMetrics
  stopLoss : Option ℚ
  takeProfit : Option ℚ
deriving DecidableEq, Repr

/-- `BacktestStatistics` (`types/index.ts:47-62`). -/
structure BacktestStatistics where
  total_trades : ℚ
  winning_trades : ℚ
  losing_trades : ℚ
  win_rate : ℚ
  average_profit : ℚ
  max_profit : ℚ
  max_loss : ℚ
  profit_factor : ℚ
  average_win : ℚ
  average_loss : ℚ
  average_time_to_exit : Option ℚ
  average_risk_reward : Option ℚ
  max_favorable_excursion : Option ℚ
  max_adverse_excursion : Option ℚ
deriving DecidableEq, Repr

/-- `BacktestResult` (`types/index.ts:64-69`). -/
structure BacktestResult where
  success : Bool
  trades : List BacktestTrade
  statistics : Option BacktestStatistics
  message : Option String
deriving DecidableEq, Repr

/-- `calculateProfitLoss` (`backtesting.ts`):
`((exit - entry) / entry) * 100` for long, `((entry - exit) / entry) * 100`
for short, with JavaScript division (non-finite when `entry = 0`). -/
def calculateProfitLoss (entryPrice exitPrice : ℚ) (direction : Direction) : JsNum :=
  match direction with
  | .long => jsMul (jsDiv (JsNum.num (exitPrice - entryPrice)) (JsNum.num entryPrice)) (JsNum.num 100)
  | .short => jsMul (jsDiv (JsNum.num (entryPrice - exitPrice)) (JsNum.num entryPrice)) (JsNum.num 100)

/-- Does this candle touch the take-profit level?
(`candle.high >= takeProfit` for long, `candle.low <= takeProfit` for
short — the first test of the forward-scan loop.) -/
def hitsTP (direction : Direction) (takeProfit : ℚ) (candle : OHLCData) : Bool :=
  match direction with
  | .long => takeProfit ≤ candle.high
  | .short => candle.low ≤ takeProfit

/-- Does this candle touch the stop-loss level?
(`candle.low <= stopLoss` for long, `candle.high >= stopLoss` for
short — the second test of the forward-scan loop.) -/
def hitsSL (direction : Direction) (stopLoss : ℚ) (candle : OHLCData) : Bool :=
  match direction with
  | .long => candle.low ≤ stopLoss
  | .short => stopLoss ≤ candle.high

/-- The forward-scan loop of `runBacktest`
(`for (let j = i + 1; j < prices.length && !exitFound; j++)`): walk the
candles after the entry day and stop at the first one touching either
level, the take-profit test coming first in each iteration.  Returns
`(exitPrice, tradeResult, exitTime)` of the first hit, or `none` when
no candle in the remaining window touches either level. -/
def scanExit (direction : Direction) (takeProfit stopLoss : ℚ) :
    List OHLCData → Option (ℚ × TradeResultTag × ℤ)
  | [] => none
  | candle :: rest =>
      if hitsTP direction takeProfit candle then
        some (takeProfit, .take_profit, candle.time)
      else if hitsSL direction stopLoss candle then
        some (stopLoss, .stop_loss, candle.time)
      else scanExit direction takeProfit stopLoss rest

/-- One iteration of `runBacktest`'s entry loop: entry at
`currentCandle.open`, exit from the forward scan over the following
candles, or — when the scan finds nothing — a forced close at
`nextCandle.close` (with the `tradeResult` variable left at its
`'stop_loss'` initial value, which is never attached to the pushed
trade).  The pushed object carries no `result`, `metrics`, `stopLoss`
or `takeProfit` property. -/
def makeTrade (direction : Direction) (takeProfit stopLoss : ℚ)
    (currentCandle nextCandle : OHLCData) (future : List OHLCData) : BacktestTrade :=
  let exit := match scanExit direction takeProfit stopLoss future with
    | some e => (e.1, e.2.2)
    | none => (nextCandle.close, nextCandle.time)
  { entry_time := currentCandle.time
    exit_time := exit.2
    entry_price := currentCandle.open_
    exit_price := exit.1
    high_price := currentCandle.high
    low_price := currentCandle.low
    result := none
    profit_loss := calculateProfitLoss currentCandle.open_ exit.1 direction
    metrics := none
    stopLoss := none
    takeProfit := none }

/-- The entry loop of `runBacktest`
(`for (let i = startIndex; i < prices.length - 1; i++)`), expressed over
the restricted window: every candle with a successor is an entry, its
forward scan covering all candles after it. -/
def buildTrades (direction : Direction) (takeProfit stopLoss : ℚ) :
    List OHLCData → List BacktestTrade
  | currentCandle :: nextCandle :: rest =>
      makeTrade direction takeProfit stopLoss currentCandle nextCandle (nextCandle :: rest)
        :: buildTrades direction takeProfit stopLoss (nextCandle :: rest)
  | _ => []

/-- `runBacktest` (`backtesting.ts`): fewer than 2 candles is the
explicit failure result; otherwise the entry loop runs from
`startIndex = max(0, prices.length - 90)` (the drop below — natural
subtraction truncates at 0) and the result is marked successful with
`statistics: null`. -/
def runBacktest (prices : List OHLCData) (takeProfit stopLoss : ℚ)
    (direction : Direction) : BacktestResult :=
  if prices.length < 2 then
    { success := false
      trades := []
      statistics := none
      message := some "Not enough price data" }
  else
    { success := true
      trades := buildTrades direction takeProfit stopLoss
        (prices.drop (prices.length - 90))
      statistics := none
      message := none }

/-! ## Concrete inputs used by the witnesses and counterexamples -/

/-- Two flat candles, all prices 100. -/
def twoFlatCandles : List OHLCData :=
  [⟨0, 100, 100, 100, 100⟩, ⟨1, 100, 100, 100, 100⟩]

/-- 90 flat candles, all prices 100 (`open = high = low = close = 100`),
one per day. -/
def flatCandles90 : List OHLCData :=
  (List.range 90).map (fun i => ⟨(i : ℤ), 100, 100, 100, 100⟩)

/-- An entry candle followed by a candle that touches both the
take-profit 110 (high 120) and the stop-loss 95 (low 90). -/
def doubleTouchCandles : List OHLCData :=
  [⟨0, 100, 100, 100, 100⟩, ⟨1, 100, 120, 90, 100⟩]

/-- A strictly increasing price series of length 16. -/
def rampPrices16 : List ℚ := (List.range 16).map (fun i => (i : ℚ))

/-- A constant price series of length 15 (every day-over-day gain and
loss is zero). -/
def constPrices15 : List ℚ := List.replicate 15 (100 : ℚ)

/-! ## The finite-value mirror of the raw target probabilities

`tpRawQ`/`slRawQ` express, as plain rationals, the values
`targetRawProbabilities` takes when `currentPrice ≠ 0` (the only case in
which its JavaScript divisions are finite); the agreement is proved in
`targetRawProbabilities_eq_of_ne_zero` below. -/

/-- Rational value of the raw take-profit probability for
`currentPrice ≠ 0`. -/
def tpRawQ (currentPrice takeProfit stopLoss : ℚ) (direction : Direction)
    (trendScore momentumScore volatilityScore : ℚ) : ℚ :=
  (match direction with
   | .long =>
      (trendScore * 0.4 + momentumScore * 0.4 + (100 - volatilityScore) * 0.2) *
        (trendScore / 100)
   | .short =>
      (trendScore * 0.4 + momentumScore * 0.4 + (100 - volatilityScore) * 0.2) *
        (1 - trendScore / 100)) *
    max 0 (1 - |(takeProfit - currentPrice) / currentPrice| * 100 / 20) *
    (1 - volatilityScore / 100)

/-- Rational value of the raw stop-loss probability for
`currentPrice ≠ 0`. -/
def slRawQ (currentPrice takeProfit stopLoss : ℚ) (direction : Direction)
    (trendScore momentumScore volatilityScore : ℚ) : ℚ :=
  (match direction with
   | .long =>
      (100 - (trendScore * 0.4 + momentumScore * 0.4 + (100 - volatilityScore) * 0.2)) *
        (1 - trendScore / 100)
   | .short =>
      (100 - (trendScore * 0.4 + momentumScore * 0.4 + (100 - volatilityScore) * 0.2)) *
        (trendScore / 100)) *
    max 0 (1 - |(stopLoss - currentPrice) / currentPrice| * 100 / 20) *
    (volatilityScore / 100)

/-! ## Arithmetic lemmas about the JavaScript number model -/

theorem jsAdd_num_num (a b : ℚ) : jsAdd (JsNum.num a) (JsNum.num b) = JsNum.num (a + b) := rfl

theorem jsSub_num_num (a b : ℚ) : jsSub (JsNum.num a) (JsNum.num b) = JsNum.num (a - b) := by
  simp only [jsSub, jsNeg, jsAdd, sub_eq_add_neg]

theorem jsMul_num_num (a b : ℚ) : jsMul (JsNum.num a) (JsNum.num b) = JsNum.num (a * b) := rfl

theorem jsDiv_num_num (a b : ℚ) (hb : b ≠ 0) :
    jsDiv (JsNum.num a) (JsNum.num b) = JsNum.num (a / b) := by
  simp only [jsDiv, if_neg hb]

theorem jsAbs_num (a : ℚ) : jsAbs (JsNum.num a) = JsNum.num |a| := rfl

theorem jsMax_num_num (a b : ℚ) : jsMax (JsNum.num a) (JsNum.num b) = JsNum.num (max a b) := rfl

theorem jsMin_num_num (a b : ℚ) : jsMin (JsNum.num a) (JsNum.num b) = JsNum.num (min a b) := rfl

theorem jsRound_num (a : ℚ) : jsRound (JsNum.num a) = JsNum.num ((⌊a + 1/2⌋ : ℤ) : ℚ) := rfl

theorem jsAdd_nan_right (a : JsNum) : jsAdd a JsNum.nan = JsNum.nan := by
  cases a <;> rfl

theorem jsMul_nan_left (a : JsNum) : jsMul JsNum.nan a = JsNum.nan := by
  cases a <;> rfl

theorem jsMin_nan_right (a : JsNum) : jsMin a JsNum.nan = JsNum.nan := by
  cases a <;> rfl

/-! ## Claim theorems -/

/-- C1: the overall score of `analyzeTrade` was specified as a weighted
blend (60% market-condition sub-score, 40% trade-parameters sub-score)
lying in [0,100].  The code instead passes five arguments to the
six-parameter `calculateTradeSuccessLikelihood`, so `slProbability` is
`undefined` inside the callee, `100 - slProbability` is `NaN`, and the
returned overall score is `NaN` for every input. -/
theorem analyzeTrade_overallScore_always_nan
    (trendScore momentumScore volatilityScore tpProbability slProbability : JsNum) :
    analyzeTradeOverallScore trendScore momentumScore volatilityScore
      tpProbability slProbability = JsNum.nan := by
  simp only [analyzeTradeOverallScore, calculateTradeSuccessLikelihood,
    show jsSub (JsNum.num 100) JsNum.undef = JsNum.nan from rfl,
    jsMul_nan_left, jsAdd_nan_right, jsMin_nan_right]

/-- C2 counterexample: the claim asserts the summary statistics of a
successful `runBacktest` are present; on a two-candle history the result
is successful yet its `statistics` field is `null`. -/
theorem runBacktest_twoCandles_statistics_null :
    (runBacktest twoFlatCandles 110 95 Direction.long).success = true ∧
    (runBacktest twoFlatCandles 110 95 Direction.long).statistics = none := by
  constructor <;> with_unfolding_all decide

/-- C2 (amended): for every history with at least 2 candles,
`runBacktest` returns a successful result, but its `statistics` field is
always `null` — the summary statistics are never computed or attached to
the result. -/
theorem runBacktest_success_statistics_always_null
    (prices : List OHLCData) (takeProfit stopLoss : ℚ) (direction : Direction)
    (h2 : 2 ≤ prices.length) :
    (runBacktest prices takeProfit stopLoss direction).success = true ∧
    (runBacktest prices takeProfit stopLoss direction).statistics = none := by
  unfold runBacktest
  rw [if_neg (by omega)]
  exact ⟨rfl, rfl⟩

/-- C2 witness: the amended statement instantiated on the two-candle
history. -/
theorem runBacktest_success_statistics_always_null_witness :
    2 ≤ twoFlatCandles.length ∧
    ((runBacktest twoFlatCandles 110 95 Direction.long).success = true ∧
     (runBacktest twoFlatCandles 110 95 Direction.long).statistics = none) :=
  ⟨by with_unfolding_all decide,
   runBacktest_success_statistics_always_null twoFlatCandles 110 95 Direction.long
     (by with_unfolding_all decide)⟩

/-- Every trade produced by the entry loop is a `makeTrade`, whose
pushed object omits the `metrics`, `result`, `stopLoss` and `takeProfit`
properties. -/
theorem mem_buildTrades_absent_fields (direction : Direction) (takeProfit stopLoss : ℚ) :
    ∀ (w : List OHLCData) (t : BacktestTrade),
      t ∈ buildTrades direction takeProfit stopLoss w →
      t.metrics = none ∧ t.result = none ∧ t.stopLoss = none ∧ t.takeProfit = none := by
  intro w
  induction w with
  | nil => intro t ht; simp [buildTrades] at ht
  | cons c w ih =>
      intro t ht
      cases w with
      | nil => simp [buildTrades] at ht
      | cons n r =>
          rw [buildTrades, List.mem_cons] at ht
          rcases ht with h | h
          · subst h; exact ⟨rfl, rfl, rfl, rfl⟩
          · exact ih t h

/-- C3: the claim says every ledger trade carries the per-trade metrics
(`maxFavorableExcursion`, `maxAdverseExcursion`, time to exit,
`riskRewardRatio`).  The `BacktestTrade` interface indeed declares
`metrics` (and `result`, `stopLoss`, `takeProfit`) as required
properties, but `runBacktest` pushes objects without any of them: on
every trade of every ledger these properties are absent (`undefined`). -/
theorem runBacktest_trades_carry_no_metrics
    (prices : List OHLCData) (takeProfit stopLoss : ℚ) (direction : Direction)
    (t : BacktestTrade) (ht : t ∈ (runBacktest prices takeProfit stopLoss direction).trades) :
    t.metrics = none ∧ t.result = none ∧ t.stopLoss = none ∧ t.takeProfit = none := by
  unfold runBacktest at ht
  by_cases h : prices.length < 2
  · rw [if_pos h] at ht; simp at ht
  · rw [if_neg h] at ht
    exact mem_buildTrades_absent_fields direction takeProfit stopLoss _ t ht

/-- C3 witness: the sole trade of the two-candle backtest, with its four
absent properties. -/
theorem runBacktest_trades_carry_no_metrics_witness :
    (⟨0, 1, 100, 100, 100, 100, none, JsNum.num 0, none, none, none⟩ : BacktestTrade) ∈
      (runBacktest twoFlatCandles 110 95 Direction.long).trades ∧
    ((⟨0, 1, 100, 100, 100, 100, none, JsNum.num 0, none, none, none⟩ : BacktestTrade).metrics = none ∧
     (⟨0, 1, 100, 100, 100, 100, none, JsNum.num 0, none, none, none⟩ : BacktestTrade).result = none ∧
     (⟨0, 1, 100, 100, 100, 100, none, JsNum.num 0, none, none, none⟩ : BacktestTrade).stopLoss = none ∧
     (⟨0, 1, 100, 100, 100, 100, none, JsNum.num 0, none, none, none⟩ : BacktestTrade).takeProfit = none) :=
  ⟨by with_unfolding_all decide,
   runBacktest_trades_carry_no_metrics twoFlatCandles 110 95 Direction.long _
     (by with_unfolding_all decide)⟩

/-- C5: with both raw probability values zero (reachable, e.g., with a
zero trend score and zero volatility score on a long trade), the
normalization divides `0 / 0`: `calculateTargetProbabilities` returns
`NaN` for both probabilities instead of a defined fallback. -/
theorem calculateTargetProbabilities_nan_on_zero_raws :
    targetRawProbabilities 100 110 95 Direction.long 0 50 0 = (JsNum.num 0, JsNum.num 0) ∧
    calculateTargetProbabilities 100 110 95 Direction.long 0 50 0 = (JsNum.nan, JsNum.nan) := by
  constructor <;> with_unfolding_all decide

/-- C6: on 90 flat candles at price 100 with take-profit 110 and
stop-loss 95 (long), no candle ever touches either level, so all 89
trades force-close at the next candle's close (price 100, one day after
entry) with `profit_loss = 0`; but the pushed trades carry no `result`
property at all (the internal `'stop_loss'` tag is never attached), so
no trade is tagged `stop_loss` in its `result` field. -/
theorem runBacktest_flat90_force_close :
    (runBacktest flatCandles90 110 95 Direction.long).trades.length = 89 ∧
    ((runBacktest flatCandles90 110 95 Direction.long).trades.all fun t =>
      decide (t.exit_price = 100 ∧ t.exit_time = t.entry_time + 1 ∧
        t.profit_loss = JsNum.num 0 ∧ t.result = none)) = true := by
  constructor <;> with_unfolding_all decide

/-- The EMA loop produces one value per remaining price. -/
theorem emaLoop_length (multiplier : ℚ) :
    ∀ (xs : List ℚ) (prev : ℚ), (emaLoop multiplier prev xs).length = xs.length := by
  intro xs
  induction xs with
  | nil => intro prev; rfl
  | cons x xs ih => intro prev; simp [emaLoop, ih]

/-- The seed followed by the EMA loop is the scan of the EMA recurrence
`prev + (cur - prev) * multiplier` over the remaining prices. -/
theorem emaLoop_scanl (multiplier : ℚ) :
    ∀ (xs : List ℚ) (prev : ℚ),
      prev :: emaLoop multiplier prev xs =
        xs.scanl (fun prev cur => prev + (cur - prev) * multiplier) prev := by
  intro xs
  induction xs with
  | nil => intro prev; simp [emaLoop, List.scanl]
  | cons x xs ih =>
      intro prev
      rw [List.scanl]
      have h : (x - prev) * multiplier + prev = prev + (x - prev) * multiplier := by ring
      simp only [emaLoop]
      rw [h, ih]

/-- C9: on any non-empty price list, `calculateEMA` returns a sequence
of the same length as the input, seeded with the first input price (not
a moving average), each subsequent value following the recurrence
`previous + (current - previous) * (2 / (period + 1))` — i.e. the
output is exactly the scan of that recurrence from `prices[0]`. -/
theorem calculateEMA_seed_length_recurrence (p : ℚ) (ps : List ℚ) (period : ℕ) :
    (calculateEMA (p :: ps) period).length = (p :: ps).length ∧
    (calculateEMA (p :: ps) period).head? = some (JsNum.num p) ∧
    calculateEMA (p :: ps) period =
      (ps.scanl (fun prev cur => prev + (cur - prev) * (2 / ((period : ℚ) + 1))) p).map
        JsNum.num := by
  refine ⟨?_, rfl, ?_⟩
  · simp [calculateEMA, emaLoop_length]
  · rw [← emaLoop_scanl]
    rfl

/-- C10: `calculateEMA` on the empty list is not the empty list — the
out-of-bounds seed read `prices[0]` yields `undefined` and the output is
the one-element array `[undefined]`; in general the output length is
`max 1 (input length)`, so the length contract fails exactly on empty
input. -/
theorem calculateEMA_empty_input_length (prices : List ℚ) (period : ℕ) :
    (calculateEMA prices period).length = max 1 prices.length ∧
    calculateEMA ([] : List ℚ) period = [JsNum.undef] := by
  refine ⟨?_, rfl⟩
  cases prices with
  | nil => rfl
  | cons p ps =>
      simp only [calculateEMA, List.length_cons, List.length_map, emaLoop_length]
      omega

/-- The `k`-th ledger entry of the entry loop is the trade built from
the `k`-th window candle, its successor, and the candles after it. -/
theorem buildTrades_getElem (direction : Direction) (takeProfit stopLoss : ℚ) :
    ∀ (w : List OHLCData) (k : ℕ),
      (buildTrades direction takeProfit stopLoss w)[k]? =
        match w.drop k with
        | c :: n :: r => some (makeTrade direction takeProfit stopLoss c n (n :: r))
        | _ => none := by
  intro w
  induction w with
  | nil => intro k; simp [buildTrades]
  | cons c w ih =>
      intro k
      cases w with
      | nil =>
          cases k with
          | zero => simp [buildTrades]
          | succ k => simp [buildTrades]
      | cons n r =>
          cases k with
          | zero => simp [buildTrades]
          | succ k =>
              rw [List.drop_succ_cons, buildTrades, List.getElem?_cons_succ]
              exact ih k

/-- The forward scan stops at the first candle touching either level
and tests the take-profit level first on that candle. -/
theorem scanExit_first_hit (direction : Direction) (takeProfit stopLoss : ℚ) :
    ∀ (future : List OHLCData) (j : ℕ) (cj : OHLCData),
      future[j]? = some cj →
      (hitsTP direction takeProfit cj || hitsSL direction stopLoss cj) = true →
      (∀ i ci, i < j → future[i]? = some ci →
        hitsTP direction takeProfit ci = false ∧ hitsSL direction stopLoss ci = false) →
      scanExit direction takeProfit stopLoss future =
        some (if hitsTP direction takeProfit cj then
                (takeProfit, TradeResultTag.take_profit, cj.time)
              else (stopLoss, TradeResultTag.stop_loss, cj.time)) := by
  intro future
  induction future with
  | nil => intro j cj hj; simp at hj
  | cons c rest ih =>
      intro j cj hj hhit hfirst
      cases j with
      | zero =>
          have hj' : c = cj := by
            rw [List.getElem?_cons_zero] at hj
            injection hj
          subst hj'
          cases htp : hitsTP direction takeProfit c with
          | true => simp [scanExit, htp]
          | false =>
              have hor : hitsTP direction takeProfit c = true ∨
                  hitsSL direction stopLoss c = true := by simpa using hhit
              have hsl : hitsSL direction stopLoss c = true := by
                rcases hor with h | h
                · rw [htp] at h; simp at h
                · exact h
              simp [scanExit, htp, hsl]
      | succ j =>
          have h0 := hfirst 0 c (Nat.succ_pos j) (by simp)
          rw [scanExit, if_neg (by simp [h0.1]), if_neg (by simp [h0.2])]
          exact ih j cj (by simpa using hj) hhit
            (fun i ci hi hci => hfirst (i + 1) ci (by omega) (by simpa using hci))

/-- C7: for every simulated entry of `runBacktest` (the `k`-th window
candle `c`, its successor `n`, and the following candles `n :: f`), if
candle `cj` at offset `j` in `n :: f` is the first candle touching
either level, then the `k`-th trade of the ledger exits on that candle:
its exit time is `cj.time`, its exit price is the take-profit price when
`cj` touches it (even if `cj` also touches the stop-loss — the
take-profit test comes first) and the stop-loss price otherwise, for
both directions. -/
theorem runBacktest_exit_on_first_touch_tp_first
    (prices : List OHLCData) (takeProfit stopLoss : ℚ) (direction : Direction)
    (h2 : 2 ≤ prices.length)
    (k : ℕ) (c n : OHLCData) (f : List OHLCData)
    (hw : (prices.drop (prices.length - 90)).drop k = c :: n :: f)
    (j : ℕ) (cj : OHLCData) (hj : (n :: f)[j]? = some cj)
    (hhit : (hitsTP direction takeProfit cj || hitsSL direction stopLoss cj) = true)
    (hfirst : ∀ i ci, i < j → (n :: f)[i]? = some ci →
      hitsTP direction takeProfit ci = false ∧ hitsSL direction stopLoss ci = false) :
    (runBacktest prices takeProfit stopLoss direction).trades[k]? =
      some (makeTrade direction takeProfit stopLoss c n (n :: f)) ∧
    (makeTrade direction takeProfit stopLoss c n (n :: f)).exit_time = cj.time ∧
    (makeTrade direction takeProfit stopLoss c n (n :: f)).exit_price =
      (if hitsTP direction takeProfit cj then takeProfit else stopLoss) ∧
    (hitsTP direction takeProfit cj = true →
      (makeTrade direction takeProfit stopLoss c n (n :: f)).exit_price = takeProfit) := by
  have hscan := scanExit_first_hit direction takeProfit stopLoss (n :: f) j cj hj hhit hfirst
  refine ⟨?_, ?_, ?_, ?_⟩
  · unfold runBacktest
    rw [if_neg (by omega)]
    rw [buildTrades_getElem, hw]
  · cases htp : hitsTP direction takeProfit cj <;>
      simp [makeTrade, hscan, htp]
  · cases htp : hitsTP direction takeProfit cj <;>
      simp [makeTrade, hscan, htp]
  · intro htp
    simp [makeTrade, hscan, htp]

/-- C7 witness: a long trade whose next candle (high 120, low 90)
touches both the take-profit 110 and the stop-loss 95; the trade exits
at the take-profit price 110. -/
theorem runBacktest_exit_on_first_touch_tp_first_witness :
    2 ≤ doubleTouchCandles.length ∧
    ((runBacktest doubleTouchCandles 110 95 Direction.long).trades[0]? =
        some (makeTrade Direction.long 110 95 ⟨0, 100, 100, 100, 100⟩ ⟨1, 100, 120, 90, 100⟩
          [⟨1, 100, 120, 90, 100⟩]) ∧
      (makeTrade Direction.long 110 95 ⟨0, 100, 100, 100, 100⟩ ⟨1, 100, 120, 90, 100⟩
          [⟨1, 100, 120, 90, 100⟩]).exit_time = (⟨1, 100, 120, 90, 100⟩ : OHLCData).time ∧
      (makeTrade Direction.long 110 95 ⟨0, 100, 100, 100, 100⟩ ⟨1, 100, 120, 90, 100⟩
          [⟨1, 100, 120, 90, 100⟩]).exit_price =
        (if hitsTP Direction.long 110 ⟨1, 100, 120, 90, 100⟩ then 110 else 95) ∧
      (hitsTP Direction.long 110 ⟨1, 100, 120, 90, 100⟩ = true →
        (makeTrade Direction.long 110 95 ⟨0, 100, 100, 100, 100⟩ ⟨1, 100, 120, 90, 100⟩
            [⟨1, 100, 120, 90, 100⟩]).exit_price = 110)) :=
  ⟨by with_unfolding_all decide,
   runBacktest_exit_on_first_touch_tp_first doubleTouchCandles 110 95 Direction.long
     (by with_unfolding_all decide) 0 ⟨0, 100, 100, 100, 100⟩ ⟨1, 100, 120, 90, 100⟩ []
     (by with_unfolding_all decide) 0 ⟨1, 100, 120, 90, 100⟩ rfl
     (by with_unfolding_all decide)
     (fun i ci hi _ => absurd hi (Nat.not_lt_zero i))⟩

/-- An RSI value built from nonnegative averages is either `NaN` (both
averages zero) or a rational in `[0, 100]` (including the collapse to
exactly `100` when only the average loss is zero). -/
theorem rsiVal_nan_or_range (g l : ℚ) (hg : 0 ≤ g) (hl : 0 ≤ l) :
    rsiVal g l = JsNum.nan ∨ ∃ q : ℚ, rsiVal g l = JsNum.num q ∧ 0 ≤ q ∧ q ≤ 100 := by
  rcases eq_or_lt_of_le hl with hl0 | hlpos
  · rcases eq_or_lt_of_le hg with hg0 | hgpos
    · left
      rw [← hl0, ← hg0]
      with_unfolding_all decide
    · right
      refine ⟨100, ?_, by norm_num, le_refl 100⟩
      rw [rsiVal, ← hl0]
      rw [show jsDiv (JsNum.num g) (JsNum.num 0) = JsNum.inf by
        simp [jsDiv, hgpos.ne', hgpos]]
      rw [show jsAdd (JsNum.num 1) JsNum.inf = JsNum.inf from rfl,
        show jsDiv (JsNum.num 100) JsNum.inf = JsNum.num 0 from rfl,
        jsSub_num_num]
      norm_num
  · right
    have hd : (0 : ℚ) < 1 + g / l := by positivity
    refine ⟨100 - 100 / (1 + g / l), ?_, ?_, ?_⟩
    · rw [rsiVal, jsDiv_num_num g l hlpos.ne', jsAdd_num_num,
        jsDiv_num_num 100 _ hd.ne', jsSub_num_num]
    · have h1 : 100 / (1 + g / l) ≤ 100 := by
        apply div_le_self (by norm_num)
        have : 0 ≤ g / l := div_nonneg hg hlpos.le
        linarith
      linarith
    · have h2 : 0 < 100 / (1 + g / l) := by positivity
      linarith

/-- Every value pushed by the Wilder loop from nonnegative averages and
nonnegative gain/loss streams is `NaN` or a rational in `[0, 100]`. -/
theorem rsiLoop_nan_or_range (period : ℕ) (hp : 0 < period) :
    ∀ (gs ls : List ℚ) (aG aL : ℚ), 0 ≤ aG → 0 ≤ aL →
      (∀ g ∈ gs, 0 ≤ g) → (∀ l ∈ ls, 0 ≤ l) →
      ∀ x ∈ rsiLoop period aG aL gs ls,
        x = JsNum.nan ∨ ∃ q : ℚ, x = JsNum.num q ∧ 0 ≤ q ∧ q ≤ 100 := by
  have hper : (0 : ℚ) < (period : ℚ) := by exact_mod_cast hp
  have hper1 : (1 : ℚ) ≤ (period : ℚ) := by exact_mod_cast hp
  intro gs
  induction gs with
  | nil =>
      intro ls aG aL _ _ _ _ x hx
      simp [rsiLoop] at hx
  | cons g gs ih =>
      intro ls aG aL haG haL hgs hls x hx
      cases ls with
      | nil => simp [rsiLoop] at hx
      | cons l ls =>
          have haG' : 0 ≤ (aG * ((period : ℚ) - 1) + g) / (period : ℚ) := by
            apply div_nonneg _ hper.le
            have := hgs g (List.mem_cons_self g gs)
            have := mul_nonneg haG (by linarith : (0 : ℚ) ≤ (period : ℚ) - 1)
            linarith
          have haL' : 0 ≤ (aL * ((period : ℚ) - 1) + l) / (period : ℚ) := by
            apply div_nonneg _ hper.le
            have := hls l (List.mem_cons_self l ls)
            have := mul_nonneg haL (by linarith : (0 : ℚ) ≤ (period : ℚ) - 1)
            linarith
          simp only [rsiLoop, List.mem_cons] at hx
          rcases hx with h | h
          · subst h
            exact rsiVal_nan_or_range _ _ haG' haL'
          · exact ih ls _ _ haG' haL'
              (fun g' hg' => hgs g' (List.mem_cons_of_mem _ hg'))
              (fun l' hl' => hls l' (List.mem_cons_of_mem _ hl')) x h

/-- C8 counterexample: the claim says no input yields a value outside
`[0, 100]`, naming the constant price series in particular; on a
constant series of 15 prices the seed average gain and loss are both
zero, the seed division is `0/0 = NaN`, and the single output value is
`NaN` — not `100` and not a number in `[0, 100]`. -/
theorem calculateRSI_constant_series_nan :
    calculateRSI constPrices15 14 = [JsNum.nan] := by
  with_unfolding_all decide

/-- C8 (amended): every value produced by `calculateRSI` is either a
rational in `[0, 100]` — with the average-loss-zero, average-gain-positive
case collapsing to exactly 100 — or `NaN`, the latter arising when an
average gain and average loss are both zero (e.g. on a constant price
series); a constant series therefore yields `NaN`, not a value in
`[0, 100]`. -/
theorem calculateRSI_values_nan_or_in_range (prices : List ℚ) (period : ℕ)
    (hp : 0 < period) (x : JsNum) (hx : x ∈ calculateRSI prices period) :
    x = JsNum.nan ∨ ∃ q : ℚ, x = JsNum.num q ∧ 0 ≤ q ∧ q ≤ 100 := by
  have hper : (0 : ℚ) < (period : ℚ) := by exact_mod_cast hp
  simp only [calculateRSI] at hx
  have hgains : ∀ c ∈ (priceChanges prices).map (fun c => if 0 < c then c else 0), 0 ≤ c := by
    intro c hc
    rcases List.mem_map.mp hc with ⟨d, _, rfl⟩
    split <;> simp_all [le_of_lt]
  have hlosses : ∀ c ∈ (priceChanges prices).map (fun c => if c < 0 then -c else 0), 0 ≤ c := by
    intro c hc
    rcases List.mem_map.mp hc with ⟨d, _, rfl⟩
    split <;> simp_all [le_of_lt]
  have hseedG : 0 ≤ (((priceChanges prices).map (fun c => if 0 < c then c else 0)).take period).sum / (period : ℚ) := by
    apply div_nonneg _ hper.le
    exact List.sum_nonneg (fun c hc => hgains c (List.mem_of_mem_take hc))
  have hseedL : 0 ≤ (((priceChanges prices).map (fun c => if c < 0 then -c else 0)).take period).sum / (period : ℚ) := by
    apply div_nonneg _ hper.le
    exact List.sum_nonneg (fun c hc => hlosses c (List.mem_of_mem_take hc))
  rcases List.mem_cons.mp hx with h | h
  · subst h
    exact rsiVal_nan_or_range _ _ hseedG hseedL
  · exact rsiLoop_nan_or_range period hp _ _ _ _ hseedG hseedL
      (fun g hg => hgains g (List.mem_of_mem_drop hg))
      (fun l hl => hlosses l (List.mem_of_mem_drop hl)) x h

/-- C8 witness: on a strictly increasing 16-price series with period 14
the first RSI value is exactly 100 (zero average loss), a number inside
the range. -/
theorem calculateRSI_values_nan_or_in_range_witness :
    0 < 14 ∧ JsNum.num 100 ∈ calculateRSI rampPrices16 14 ∧
    (JsNum.num 100 = JsNum.nan ∨
      ∃ q : ℚ, JsNum.num 100 = JsNum.num q ∧ 0 ≤ q ∧ q ≤ 100) :=
  ⟨by decide, by with_unfolding_all decide,
   calculateRSI_values_nan_or_in_range rampPrices16 14 (by decide) (JsNum.num 100)
     (by with_unfolding_all decide)⟩

/-- When `currentPrice ≠ 0` every JavaScript division inside
`targetRawProbabilities` is finite, and the raw values agree with their
rational mirrors `tpRawQ`/`slRawQ`. -/
theorem targetRawProbabilities_eq_of_ne_zero
    (cp tp sl : ℚ) (dir : Direction) (t m v : ℚ) (hcp : cp ≠ 0) :
    targetRawProbabilities cp tp sl dir t m v =
      (JsNum.num (tpRawQ cp tp sl dir t m v), JsNum.num (slRawQ cp tp sl dir t m v)) := by
  cases dir <;>
    simp [targetRawProbabilities, tpRawQ, slRawQ, jsDiv_num_num, hcp,
      jsAbs_num, jsMul_num_num, jsAdd_num_num, jsSub_num_num, jsMax_num_num,
      (by norm_num : (20 : ℚ) ≠ 0)]

/-- The raw take-profit value is nonnegative whenever the three scores
are in `[0, 100]`. -/
theorem tpRawQ_nonneg (cp tp sl : ℚ) (dir : Direction) (t m v : ℚ)
    (ht0 : 0 ≤ t) (ht1 : t ≤ 100) (hm0 : 0 ≤ m) (hv0 : 0 ≤ v) (hv1 : v ≤ 100) :
    0 ≤ tpRawQ cp tp sl dir t m v := by
  have hbase : 0 ≤ t * 0.4 + m * 0.4 + (100 - v) * 0.2 := by nlinarith
  have hvol : 0 ≤ 1 - v / 100 := by linarith
  have hmax : (0 : ℚ) ≤ max 0 (1 - |(tp - cp) / cp| * 100 / 20) := le_max_left _ _
  cases dir with
  | long =>
      exact mul_nonneg (mul_nonneg (mul_nonneg hbase (by linarith)) hmax) hvol
  | short =>
      exact mul_nonneg (mul_nonneg (mul_nonneg hbase (by linarith)) hmax) hvol

/-- The raw stop-loss value is nonnegative whenever the three scores
are in `[0, 100]`. -/
theorem slRawQ_nonneg (cp tp sl : ℚ) (dir : Direction) (t m v : ℚ)
    (ht0 : 0 ≤ t) (ht1 : t ≤ 100) (hm1 : m ≤ 100) (hv0 : 0 ≤ v) :
    0 ≤ slRawQ cp tp sl dir t m v := by
  have hbase : 0 ≤ 100 - (t * 0.4 + m * 0.4 + (100 - v) * 0.2) := by nlinarith
  have hvol : 0 ≤ v / 100 := by linarith
  have hmax : (0 : ℚ) ≤ max 0 (1 - |(sl - cp) / cp| * 100 / 20) := le_max_left _ _
  cases dir with
  | long =>
      exact mul_nonneg (mul_nonneg (mul_nonneg hbase (by linarith)) hmax) hvol
  | short =>
      exact mul_nonneg (mul_nonneg (mul_nonneg hbase (by linarith)) hmax) hvol

/-- Two half-up roundings of values summing to 100 give 100, or 101
when the fractional parts are exactly one half. -/
theorem floor_half_sum (x y : ℚ) (hxy : x + y = 100) :
    ⌊x + 1/2⌋ + ⌊y + 1/2⌋ = 100 ∨ ⌊x + 1/2⌋ + ⌊y + 1/2⌋ = 101 := by
  have h1 : ((⌊x + 1/2⌋ : ℤ) : ℚ) ≤ x + 1/2 := Int.floor_le _
  have h2 : ((⌊y + 1/2⌋ : ℤ) : ℚ) ≤ y + 1/2 := Int.floor_le _
  have h3 : x + 1/2 < ⌊x + 1/2⌋ + 1 := Int.lt_floor_add_one _
  have h4 : y + 1/2 < ⌊y + 1/2⌋ + 1 := Int.lt_floor_add_one _
  have hle : ⌊x + 1/2⌋ + ⌊y + 1/2⌋ ≤ (101 : ℤ) := by
    have : ((⌊x + 1/2⌋ + ⌊y + 1/2⌋ : ℤ) : ℚ) ≤ 101 := by push_cast; linarith
    exact_mod_cast this
  have hgt : (99 : ℤ) < ⌊x + 1/2⌋ + ⌊y + 1/2⌋ := by
    have : (99 : ℚ) < ((⌊x + 1/2⌋ + ⌊y + 1/2⌋ : ℤ) : ℚ) := by push_cast; linarith
    exact_mod_cast this
  omega

/-- C4 counterexample: a concrete non-degenerate input (both raw values
nonzero) on which the rounded probabilities are 51 and 50 — their sum is
101, not 100, because the renormalized values 50.5 and 49.5 both round
up under `Math.round`. -/
theorem calculateTargetProbabilities_sum_101_example :
    calculateTargetProbabilities 100 100 100 Direction.long 50 (205/4) 50 =
      (JsNum.num 51, JsNum.num 50) ∧
    targetRawProbabilities 100 100 100 Direction.long 50 (205/4) 50 ≠
      (JsNum.num 0, JsNum.num 0) ∧
    jsAdd (JsNum.num 51) (JsNum.num 50) ≠ JsNum.num 100 := by
  refine ⟨?_, ?_, ?_⟩ <;> with_unfolding_all decide

/-- C4 (amended): for every input with a positive current price, scores
in `[0, 100]`, and raw values not both zero, the integer take-profit and
stop-loss probabilities sum to 100 or to 101 — 101 exactly when the
renormalized percentages have fractional part one half, both rounding
up. -/
theorem calculateTargetProbabilities_sum_100_or_101
    (cp tp sl : ℚ) (dir : Direction) (t m v : ℚ)
    (hcp : 0 < cp) (ht0 : 0 ≤ t) (ht1 : t ≤ 100) (hm0 : 0 ≤ m) (hm1 : m ≤ 100)
    (hv0 : 0 ≤ v) (hv1 : v ≤ 100)
    (hnd : targetRawProbabilities cp tp sl dir t m v ≠ (JsNum.num 0, JsNum.num 0)) :
    jsAdd (calculateTargetProbabilities cp tp sl dir t m v).1
        (calculateTargetProbabilities cp tp sl dir t m v).2 = JsNum.num 100 ∨
    jsAdd (calculateTargetProbabilities cp tp sl dir t m v).1
        (calculateTargetProbabilities cp tp sl dir t m v).2 = JsNum.num 101 := by
  have hraw := targetRawProbabilities_eq_of_ne_zero cp tp sl dir t m v hcp.ne'
  set A := tpRawQ cp tp sl dir t m v with hA
  set B := slRawQ cp tp sl dir t m v with hB
  have hA0 : 0 ≤ A := tpRawQ_nonneg cp tp sl dir t m v ht0 ht1 hm0 hv0 hv1
  have hB0 : 0 ≤ B := slRawQ_nonneg cp tp sl dir t m v ht0 ht1 hm1 hv0
  have htot : 0 < A + B := by
    rcases (add_nonneg hA0 hB0).eq_or_lt with h | h
    · exfalso
      apply hnd
      rw [hraw]
      have hA' : A = 0 := by linarith
      have hB' : B = 0 := by linarith
      rw [hA', hB']
    · exact h
  have hx : calculateTargetProbabilities cp tp sl dir t m v =
      (JsNum.num ((⌊A / (A + B) * 100 + 1/2⌋ : ℤ) : ℚ),
       JsNum.num ((⌊B / (A + B) * 100 + 1/2⌋ : ℤ) : ℚ)) := by
    simp only [calculateTargetProbabilities, hraw, jsAdd_num_num,
      jsDiv_num_num _ _ htot.ne', jsMul_num_num, jsRound_num]
  have hsum : A / (A + B) * 100 + B / (A + B) * 100 = 100 := by
    field_simp
    ring
  rcases floor_half_sum _ _ hsum with h | h
  · left
    rw [hx, jsAdd_num_num]
    norm_num [← Int.cast_add, h]
  · right
    rw [hx, jsAdd_num_num]
    norm_num [← Int.cast_add, h]

/-- C4 witness: the amended statement instantiated at current price
100, take-profit 110, stop-loss 95, long, all scores 50 (the rounded
probabilities are 40 and 60, summing to 100). -/
theorem calculateTargetProbabilities_sum_100_or_101_witness :
    (0 : ℚ) < 100 ∧
    targetRawProbabilities 100 110 95 Direction.long 50 50 50 ≠
      (JsNum.num 0, JsNum.num 0) ∧
    (jsAdd (calculateTargetProbabilities 100 110 95 Direction.long 50 50 50).1
        (calculateTargetProbabilities 100 110 95 Direction.long 50 50 50).2 = JsNum.num 100 ∨
     jsAdd (calculateTargetProbabilities 100 110 95 Direction.long 50 50 50).1
        (calculateTargetProbabilities 100 110 95 Direction.long 50 50 50).2 = JsNum.num 101) :=
  ⟨by norm_num, by with_unfolding_all decide,
   calculateTargetProbabilities_sum_100_or_101 100 110 95 Direction.long 50 50 50
     (by norm_num) (by norm_num) (by norm_num) (by norm_num) (by norm_num)
     (by norm_num) (by norm_num) (by with_unfolding_all decide)⟩
